import Mathlib

/-!
Shallow embedding of the click-track sampler engine (src/sampler.rs).

Machine floating-point values (f64/f32) are modelled as rationals (exact
arithmetic), machine integers as Int/Nat.  The concurrently mutated atomic
parameters (bpm, playing, volume) are modelled by passing the per-frame
loaded values explicitly: each frame of a `write` call receives the triple
of values its three atomic loads observed.  The mpsc tick channel is
modelled by a flag `hasSender` on the sampler (the `Option<Sender>` field)
together with a flag `receiverAlive`; a failed `send` (receiver dropped)
is the `Except.error` outcome, and the `unwrap()` in `Sampler::write`
turning a failed send into a panic is the `Except.error` outcome of the
whole step.
-/

namespace Cory

/-- Rust `f64::round`: nearest integer, ties rounded away from zero. -/
def rustRound (x : ℚ) : ℤ :=
  if 0 ≤ x then ⌊x + 1 / 2⌋ else ⌈x - 1 / 2⌉

/-- The values observed by one frame's three atomic loads of the shared
`SamplerParam { bpm, playing, volume }` (src/sampler.rs lines 12-17). -/
structure SamplerParam where
  bpm : ℚ
  playing : Bool
  volume : ℚ
deriving DecidableEq

/-- The `Sampler` state (src/sampler.rs lines 24-38).  `hasSender` models
whether the `sender : Option<Sender<SamplerEvent>>` field is `Some`. -/
structure Sampler where
  samples : List ℚ
  n_channels : ℕ
  sample_rate : ℕ
  playhead : ℚ
  was_playing : Bool
  hasSender : Bool
deriving DecidableEq

/-- `Sampler::send_tick` (src/sampler.rs lines 111-116): when a sender is
present, sending fails iff the receiving end has been dropped; the returned
Bool records whether a `SamplerEvent::Tick` was emitted on the channel. -/
def send_tick (hasSender receiverAlive : Bool) : Except Unit Bool :=
  if hasSender then
    if receiverAlive then .ok true else .error ()
  else .ok false

/-- `Sampler::cycle_length` (src/sampler.rs lines 118-121):
`sample_rate as f64 * 60.0 / bpm`. -/
def cycle_length (sample_rate : ℕ) (bpm : ℚ) : ℚ :=
  (sample_rate : ℚ) * 60 / bpm

/-- The playhead advance of one frame (src/sampler.rs lines 156-163,
with `inc` and `length` already computed). -/
def clockAdvance (playhead inc length : ℚ) : ℚ :=
  if playhead + inc < length then playhead + inc else playhead + inc - length

/-- The play/stop edge detection at the top of each frame
(src/sampler.rs lines 128-135). -/
def updateWasPlaying (s : Sampler) (playing : Bool) : Sampler :=
  if !s.was_playing && playing then { s with was_playing := true }
  else if s.was_playing && !playing then { s with was_playing := false, playhead := 0 }
  else s

/-- The guarded buffer read and frame fill (src/sampler.rs lines 143-150):
`idx = playhead.round() as usize`; if in bounds, every channel slot of the
frame receives `T::from_sample(samples[idx] * volume)` (the output-format
conversion is the abstract `conv`). -/
def writtenFrame {T : Type} (conv : ℚ → T) (s : Sampler) (volume : ℚ)
    (frame : List T) : List T :=
  let idx := (rustRound s.playhead).toNat
  if idx < s.samples.length then
    frame.map (fun _ => conv (s.samples.getD idx 0 * volume))
  else frame

/-- One iteration of the per-frame loop of `Sampler::write`
(src/sampler.rs lines 127-164): edge detection, skip when not playing,
guarded frame fill, playhead advance, and on wrap `send_tick().unwrap()` —
modelled as an `Except.error` outcome (a panic of the callback) when the
send fails. -/
def writeStep {T : Type} (conv : ℚ → T) (outRate : ℕ) (receiverAlive : Bool)
    (s : Sampler) (p : SamplerParam) (frame : List T) :
    Except Unit (Sampler × List T × Bool) :=
  let s := updateWasPlaying s p.playing
  if !p.playing then .ok (s, frame, false)
  else
    let frame := writtenFrame conv s p.volume frame
    let inc := (s.sample_rate : ℚ) / (outRate : ℚ)
    let playhead_inc := s.playhead + inc
    let length := cycle_length s.sample_rate p.bpm
    if playhead_inc < length then
      .ok ({ s with playhead := playhead_inc }, frame, false)
    else
      match send_tick s.hasSender receiverAlive with
      | .ok delivered => .ok ({ s with playhead := playhead_inc - length }, frame, delivered)
      | .error e => .error e

/-- `Sampler::write` over a whole data slice, as the list of its frames
(`data.chunks_mut(n_channels)`), each paired with the parameter values its
atomic loads observed.  Returns the final sampler state, the output frames,
and the number of ticks emitted; `Except.error` models a panic of the
callback. -/
def writeFrames {T : Type} (conv : ℚ → T) (outRate : ℕ) (receiverAlive : Bool) :
    Sampler → List (SamplerParam × List T) → Except Unit (Sampler × List (List T) × ℕ)
  | s, [] => .ok (s, [], 0)
  | s, (p, frame) :: rest =>
    match writeStep conv outRate receiverAlive s p frame with
    | .error e => .error e
    | .ok (s1, f1, t1) =>
      match writeFrames conv outRate receiverAlive s1 rest with
      | .error e => .error e
      | .ok (s2, fs, t2) => .ok (s2, f1 :: fs, (if t1 then 1 else 0) + t2)

/-- The final playhead of a `writeFrames` run, `none` on panic. -/
def playheadAfter {T : Type} (r : Except Unit (Sampler × List (List T) × ℕ)) : Option ℚ :=
  match r with
  | .ok (s, _, _) => some s.playhead
  | .error _ => none

/-- The tick count of a `writeFrames` run, `none` on panic. -/
def ticksAfter {T : Type} (r : Except Unit (Sampler × List (List T) × ℕ)) : Option ℕ :=
  match r with
  | .ok (_, _, t) => some t
  | .error _ => none

/-- The output frames of a `writeFrames` run, `none` on panic. -/
def framesAfter {T : Type} (r : Except Unit (Sampler × List (List T) × ℕ)) :
    Option (List (List T)) :=
  match r with
  | .ok (_, fs, _) => some fs
  | .error _ => none

/-- `buffer_i32_to_f64` (src/sampler.rs lines 176-187): 24-bit samples are
divided by `(1 << 23) - 1`, 32-bit samples by `i32::MAX = 2^31 - 1`. -/
def buffer_i32_to_f64 (buffer_in : List ℤ) (bit_depth : ℕ) : Except String (List ℚ) :=
  if bit_depth = 24 then .ok (buffer_in.map fun s : ℤ => (s : ℚ) / (2 ^ 23 - 1))
  else if bit_depth = 32 then .ok (buffer_in.map fun s : ℤ => (s : ℚ) / (2 ^ 31 - 1))
  else .error "Not supported bit depth"

/-- `buffer_i16_to_f64` (src/sampler.rs lines 189-199): 16-bit samples are
divided by `i16::MAX = 32767`. -/
def buffer_i16_to_f64 (buffer_in : List ℤ) (bit_depth : ℕ) : Except String (List ℚ) :=
  if bit_depth = 16 then .ok (buffer_in.map fun s : ℤ => (s : ℚ) / 32767)
  else .error "Not supported bit depth"

/-- `buffer_f32_to_f64` (src/sampler.rs lines 201-206): each f32 sample is
copied through with only a precision widening (exact, hence the identity on
the rational model). -/
def buffer_f32_to_f64 (buffer_in : List ℚ) : Except String (List ℚ) :=
  .ok buffer_in

/-- The sample format of a wav spec (`hound::SampleFormat`). -/
inductive SampleFormat
  | float
  | int
deriving DecidableEq

/-- The wav spec metadata `from_reader` consumes (`reader.spec()`). -/
structure WavSpec where
  sample_format : SampleFormat
  bits_per_sample : ℕ
  channels : ℕ
  sample_rate : ℕ
deriving DecidableEq

/-- `Sampler::from_reader` (src/sampler.rs lines 58-109).  The reader's
decoded raw samples appear as `floatSamples` (the f32 path) and
`intSamples` (the i16/i32 paths, both integer-valued). -/
def from_reader (spec : WavSpec) (floatSamples : List ℚ) (intSamples : List ℤ)
    (hasSender : Bool) : Except String Sampler :=
  match spec.sample_format with
  | .float =>
    match buffer_f32_to_f64 floatSamples with
    | .ok buffer_out =>
      .ok { samples := buffer_out, n_channels := spec.channels,
            sample_rate := spec.sample_rate, playhead := 0,
            was_playing := false, hasSender := hasSender }
    | .error e => .error e
  | .int =>
    match (if spec.bits_per_sample = 16 then buffer_i16_to_f64 intSamples 16
           else if spec.bits_per_sample = 24 then buffer_i32_to_f64 intSamples 24
           else if spec.bits_per_sample = 32 then buffer_i32_to_f64 intSamples 32
           else .error "Unsupported integer sample format bit depth") with
    | .ok samples =>
      .ok { samples := samples, n_channels := spec.channels,
            sample_rate := spec.sample_rate, playhead := 0,
            was_playing := false, hasSender := hasSender }
    | .error e => .error e

/-- Concrete sampler fixture: empty sample buffer, one channel, source
rate `sr`, playhead `0`, given `was_playing` and sender flags. -/
def sFix (sr : ℕ) (wp hs : Bool) : Sampler :=
  { samples := [], n_channels := 1, sample_rate := sr, playhead := 0,
    was_playing := wp, hasSender := hs }

/-- Parameter reading: the given tempo, `playing = true`, volume `1`. -/
def pPlay (b : ℚ) : SamplerParam := { bpm := b, playing := true, volume := 1 }

/-- Parameter reading: the given tempo, `playing = false`, volume `1`. -/
def pStop (b : ℚ) : SamplerParam := { bpm := b, playing := false, volume := 1 }

/-! ### Helper lemmas -/

lemma updateWasPlaying_play (s : Sampler) :
    updateWasPlaying s true = { s with was_playing := true } := by
  cases s with
  | mk samples nch sr ph wp hs => cases wp <;> simp [updateWasPlaying]

lemma updateWasPlaying_stop (s : Sampler) :
    updateWasPlaying s false =
      if s.was_playing then { s with was_playing := false, playhead := 0 } else s := by
  cases s with
  | mk samples nch sr ph wp hs => cases wp <;> simp [updateWasPlaying]

/-- When the frame observes `playing = true` and the tick receiver is alive,
one frame of `Sampler::write` succeeds: the edge detection latches
`was_playing`, the frame is filled by the guarded buffer read, the playhead
advances by `clockAdvance`, and a tick is emitted exactly on wrap (when a
sender is present). -/
lemma writeStep_play {T : Type} (conv : ℚ → T) (outRate : ℕ) (s : Sampler)
    (p : SamplerParam) (frame : List T) (hp : p.playing = true) :
    writeStep conv outRate true s p frame =
      .ok ({ s with was_playing := true,
                    playhead := clockAdvance s.playhead
                      ((s.sample_rate : ℚ) / (outRate : ℚ))
                      (cycle_length s.sample_rate p.bpm) },
           writtenFrame conv s p.volume frame,
           if s.playhead + (s.sample_rate : ℚ) / (outRate : ℚ) <
                cycle_length s.sample_rate p.bpm
             then false else s.hasSender) := by
  have hw : writtenFrame conv { s with was_playing := true } p.volume frame =
      writtenFrame conv s p.volume frame := rfl
  simp only [writeStep, hp, updateWasPlaying_play, Bool.not_true, Bool.false_eq_true,
    if_false, hw, clockAdvance]
  split
  · rfl
  · cases hs : s.hasSender <;> simp [send_tick]

/-- When the frame observes `playing = false`, one frame of `Sampler::write`
only runs the edge detection and skips everything else. -/
lemma writeStep_stop {T : Type} (conv : ℚ → T) (outRate : ℕ) (ra : Bool)
    (s : Sampler) (p : SamplerParam) (frame : List T) (hp : p.playing = false) :
    writeStep conv outRate ra s p frame = .ok (updateWasPlaying s false, frame, false) := by
  simp [writeStep, hp]

lemma clockAdvance_bounds (ph inc L : ℚ) (h0 : 0 ≤ ph) (h1 : ph < L)
    (h2 : inc ≤ L) (h3 : 0 ≤ inc) :
    0 ≤ clockAdvance ph inc L ∧ clockAdvance ph inc L < L := by
  unfold clockAdvance
  split
  · constructor <;> linarith
  · constructor <;> linarith

/-- Constant-parameter playback: when every frame observes the same
parameter values with `playing = true`, a sender is present, the receiver
is alive, and the per-frame increment does not exceed the cycle length,
`writeFrames` succeeds and the final playhead differs from
`start + N * inc` by exactly `cycle_length * ticks`, staying in
`[0, cycle_length)`. -/
lemma writeFrames_const_play {T : Type} (conv : ℚ → T) (outRate : ℕ) (p : SamplerParam)
    (hp : p.playing = true) :
    ∀ (inputs : List (SamplerParam × List T)) (s : Sampler),
      (∀ x ∈ inputs, x.1 = p) →
      0 ≤ s.playhead →
      s.playhead < cycle_length s.sample_rate p.bpm →
      (s.sample_rate : ℚ) / (outRate : ℚ) ≤ cycle_length s.sample_rate p.bpm →
      s.hasSender = true →
      ∃ s' fs t, writeFrames conv outRate true s inputs = .ok (s', fs, t) ∧
        s'.sample_rate = s.sample_rate ∧
        s'.playhead = s.playhead +
            (inputs.length : ℚ) * ((s.sample_rate : ℚ) / (outRate : ℚ)) -
            cycle_length s.sample_rate p.bpm * (t : ℚ) ∧
        0 ≤ s'.playhead ∧ s'.playhead < cycle_length s.sample_rate p.bpm := by
  intro inputs
  induction inputs with
  | nil =>
    intro s _ h0 h1 _ _
    exact ⟨s, [], 0, rfl, rfl, by simp, h0, h1⟩
  | cons head tail ih =>
    obtain ⟨p1, f1⟩ := head
    intro s hall h0 h1 hinc hsend
    have hhead : p1 = p := hall (p1, f1) (List.mem_cons_self _ _)
    subst hhead
    have hinc0 : 0 ≤ (s.sample_rate : ℚ) / (outRate : ℚ) := by positivity
    set inc := (s.sample_rate : ℚ) / (outRate : ℚ) with hinc_def
    set L := cycle_length s.sample_rate p1.bpm with hL_def
    -- the first frame
    have hstep := writeStep_play conv outRate s p1 f1 hp
    set s1 : Sampler :=
      { s with was_playing := true,
               playhead := clockAdvance s.playhead inc L } with hs1_def
    have hb := clockAdvance_bounds s.playhead inc L h0 h1 hinc hinc0
    have hs1rate : s1.sample_rate = s.sample_rate := rfl
    have hs1send : s1.hasSender = s.hasSender := rfl
    have hs1ph : s1.playhead = clockAdvance s.playhead inc L := rfl
    -- the remaining frames
    obtain ⟨s2, fs, t2, hrec, hrate, hph, hge, hlt⟩ :=
      ih s1 (fun x hx => hall x (List.mem_cons_of_mem _ hx))
        hb.1 (by rw [hs1rate]; exact hb.2) (by rw [hs1rate]; exact hinc) (by rw [hs1send, hsend])
    rw [hs1rate, hs1ph] at hph
    rw [hs1rate] at hlt
    refine ⟨s2, writtenFrame conv s p1.volume f1 :: fs,
      (if (if s.playhead + inc < L then false else s.hasSender) then 1 else 0) + t2,
      ?_, ?_, ?_, hge, hlt⟩
    · simp only [writeFrames, hstep, hrec]
    · rw [hrate, hs1rate]
    · rw [hph, hsend]
      by_cases hwrap : s.playhead + inc < L
      · simp only [clockAdvance, hwrap, if_true, if_false, Bool.false_eq_true,
          List.length_cons]
        push_cast
        ring
      · simp only [clockAdvance, hwrap, if_true, if_false, List.length_cons]
        push_cast
        ring

lemma decode_bound_aux (x lo hi : ℤ) (d : ℚ) (hd : 0 < d) (hhd : (hi : ℚ) = d)
    (hlo : lo ≤ x) (hhi : x ≤ hi) :
    (lo : ℚ) / d ≤ (x : ℚ) / d ∧ (x : ℚ) / d ≤ 1 := by
  constructor
  · exact (div_le_div_iff_of_pos_right hd).mpr (by exact_mod_cast hlo)
  · rw [div_le_one hd, ← hhd]
    exact_mod_cast hhi

/-! ### Claims -/

/-- C3 counterexample: the most negative 16-bit sample, `i16::MIN = -2^15`,
decodes to `-32768 / 32767`, which lies strictly below `-1`: decoded values
do NOT all lie within `[-1, 1]`. -/
theorem c3_counterexample :
    buffer_i16_to_f64 [-(2 ^ 15)] 16 = .ok [-(32768 : ℚ) / 32767] ∧
    -(32768 : ℚ) / 32767 < -1 := by
  constructor
  · norm_num [buffer_i16_to_f64]
  · norm_num

/-- C3 (amended): decoded integer samples of width w lie in
`[-2^(w-1)/(2^(w-1)-1), 1]`; every sample except the most negative one lies
within `[-1, 1]`; the maximum positive 16-bit sample `2^15 - 1 = 32767` maps
to exactly `1` and `-(2^15 - 1)` to exactly `-1` (divisor `32767`, the
positive signed maximum); floating-point samples are copied through
unchanged (no scaling, no clamping). -/
theorem c3_normalized_range_amended :
    (∀ (xs : List ℤ) (ys : List ℚ), buffer_i16_to_f64 xs 16 = .ok ys →
      (∀ x ∈ xs, -(2 ^ 15) ≤ x ∧ x ≤ 2 ^ 15 - 1) →
      ∀ y ∈ ys, -(2 ^ 15 : ℚ) / (2 ^ 15 - 1) ≤ y ∧ y ≤ 1) ∧
    (∀ (xs : List ℤ) (ys : List ℚ), buffer_i32_to_f64 xs 24 = .ok ys →
      (∀ x ∈ xs, -(2 ^ 23) ≤ x ∧ x ≤ 2 ^ 23 - 1) →
      ∀ y ∈ ys, -(2 ^ 23 : ℚ) / (2 ^ 23 - 1) ≤ y ∧ y ≤ 1) ∧
    (∀ (xs : List ℤ) (ys : List ℚ), buffer_i32_to_f64 xs 32 = .ok ys →
      (∀ x ∈ xs, -(2 ^ 31) ≤ x ∧ x ≤ 2 ^ 31 - 1) →
      ∀ y ∈ ys, -(2 ^ 31 : ℚ) / (2 ^ 31 - 1) ≤ y ∧ y ≤ 1) ∧
    (∀ (xs : List ℤ) (ys : List ℚ), buffer_i16_to_f64 xs 16 = .ok ys →
      (∀ x ∈ xs, -(2 ^ 15 - 1) ≤ x ∧ x ≤ 2 ^ 15 - 1) →
      ∀ y ∈ ys, -1 ≤ y ∧ y ≤ 1) ∧
    buffer_i16_to_f64 [2 ^ 15 - 1] 16 = .ok [1] ∧
    buffer_i16_to_f64 [-(2 ^ 15 - 1)] 16 = .ok [-1] ∧
    (∀ xs : List ℚ, buffer_f32_to_f64 xs = .ok xs) := by
  refine ⟨?_, ?_, ?_, ?_, ?_, ?_, fun xs => rfl⟩
  · intro xs ys hok hbnd y hy
    unfold buffer_i16_to_f64 at hok
    rw [if_pos rfl] at hok
    obtain rfl := Except.ok.inj hok
    obtain ⟨x, hx, rfl⟩ := List.mem_map.mp hy
    obtain ⟨hlo, hhi⟩ := hbnd x hx
    have h := decode_bound_aux x (-(2 ^ 15)) (2 ^ 15 - 1) 32767
      (by norm_num) (by norm_num) hlo hhi
    refine ⟨?_, h.2⟩
    calc -(2 ^ 15 : ℚ) / (2 ^ 15 - 1) = ((-(2 ^ 15) : ℤ) : ℚ) / 32767 := by norm_num
      _ ≤ (x : ℚ) / 32767 := h.1
  · intro xs ys hok hbnd y hy
    unfold buffer_i32_to_f64 at hok
    rw [if_pos rfl] at hok
    obtain rfl := Except.ok.inj hok
    obtain ⟨x, hx, rfl⟩ := List.mem_map.mp hy
    obtain ⟨hlo, hhi⟩ := hbnd x hx
    have h := decode_bound_aux x (-(2 ^ 23)) (2 ^ 23 - 1) (2 ^ 23 - 1)
      (by norm_num) (by norm_num) hlo hhi
    refine ⟨?_, h.2⟩
    calc -(2 ^ 23 : ℚ) / (2 ^ 23 - 1) = ((-(2 ^ 23) : ℤ) : ℚ) / (2 ^ 23 - 1) := by norm_num
      _ ≤ (x : ℚ) / (2 ^ 23 - 1) := h.1
  · intro xs ys hok hbnd y hy
    unfold buffer_i32_to_f64 at hok
    rw [if_neg (by decide), if_pos rfl] at hok
    obtain rfl := Except.ok.inj hok
    obtain ⟨x, hx, rfl⟩ := List.mem_map.mp hy
    obtain ⟨hlo, hhi⟩ := hbnd x hx
    have h := decode_bound_aux x (-(2 ^ 31)) (2 ^ 31 - 1) (2 ^ 31 - 1)
      (by norm_num) (by norm_num) hlo hhi
    refine ⟨?_, h.2⟩
    calc -(2 ^ 31 : ℚ) / (2 ^ 31 - 1) = ((-(2 ^ 31) : ℤ) : ℚ) / (2 ^ 31 - 1) := by norm_num
      _ ≤ (x : ℚ) / (2 ^ 31 - 1) := h.1
  · intro xs ys hok hbnd y hy
    unfold buffer_i16_to_f64 at hok
    rw [if_pos rfl] at hok
    obtain rfl := Except.ok.inj hok
    obtain ⟨x, hx, rfl⟩ := List.mem_map.mp hy
    obtain ⟨hlo, hhi⟩ := hbnd x hx
    have h := decode_bound_aux x (-(2 ^ 15 - 1)) (2 ^ 15 - 1) 32767
      (by norm_num) (by norm_num) hlo hhi
    refine ⟨?_, h.2⟩
    calc (-1 : ℚ) = ((-(2 ^ 15 - 1) : ℤ) : ℚ) / 32767 := by norm_num
      _ ≤ (x : ℚ) / 32767 := h.1
  · norm_num [buffer_i16_to_f64]
  · norm_num [buffer_i16_to_f64]

/-- C3 witness: the amended bounds at the concrete 16-bit sample `16383`. -/
theorem c3_witness :
    -(2 ^ 15 : ℚ) / (2 ^ 15 - 1) ≤ (16383 : ℚ) / 32767 ∧ (16383 : ℚ) / 32767 ≤ 1 :=
  c3_normalized_range_amended.1 [16383] [(16383 : ℚ) / 32767]
    (by norm_num [buffer_i16_to_f64]) (by norm_num) _ (by norm_num)

/-- C5: the decoder divides 16-bit samples by exactly `32767 = 2^15 - 1`,
24-bit samples by exactly `2^23 - 1`, 32-bit samples by exactly
`i32::MAX = 2^31 - 1 = 2147483647`, and copies floating-point samples
through unchanged. -/
theorem c5_exact_divisors :
    (∀ xs : List ℤ, buffer_i16_to_f64 xs 16 = .ok (xs.map fun s : ℤ => (s : ℚ) / 32767)) ∧
    (∀ xs : List ℤ, buffer_i32_to_f64 xs 24 = .ok (xs.map fun s : ℤ => (s : ℚ) / (2 ^ 23 - 1))) ∧
    (∀ xs : List ℤ, buffer_i32_to_f64 xs 32 = .ok (xs.map fun s : ℤ => (s : ℚ) / (2 ^ 31 - 1))) ∧
    (∀ xs : List ℚ, buffer_f32_to_f64 xs = .ok xs) ∧
    (32767 : ℤ) = 2 ^ 15 - 1 ∧ (2147483647 : ℤ) = 2 ^ 31 - 1 ∧ (8388607 : ℤ) = 2 ^ 23 - 1 :=
  ⟨fun _ => rfl, fun _ => rfl, fun _ => rfl, fun _ => rfl,
    by norm_num, by norm_num, by norm_num⟩

/-- C9: constructing a sampler from an integer-format waveform whose bit
depth is not 16, 24 or 32 fails with the unsupported-bit-depth decode error
and constructs no engine (no fallback buffer). -/
theorem c9_unsupported_bit_depth (spec : WavSpec) (fls : List ℚ) (ints : List ℤ)
    (hs : Bool) (hfmt : spec.sample_format = SampleFormat.int)
    (h16 : spec.bits_per_sample ≠ 16) (h24 : spec.bits_per_sample ≠ 24)
    (h32 : spec.bits_per_sample ≠ 32) :
    from_reader spec fls ints hs = .error "Unsupported integer sample format bit depth" := by
  unfold from_reader
  rw [hfmt, if_neg h16, if_neg h24, if_neg h32]

/-- C9 witness: an 8-bit integer waveform is rejected. -/
theorem c9_witness :
    from_reader ⟨SampleFormat.int, 8, 1, 44100⟩ [] [] false =
      .error "Unsupported integer sample format bit depth" :=
  c9_unsupported_bit_depth _ _ _ _ rfl (by decide) (by decide) (by decide)

/-- C1 (code bug): at source rate 1 Hz, output rate 1 Hz, tempo 120 BPM
(cycle length 1/2) the first frame wraps the playhead.  With the tick
receiver dropped, that frame's `send_tick().unwrap()` makes the write
callback panic (the `Except.error` outcome) instead of swallowing the
failure; the very same frame with a live receiver succeeds and emits the
tick. -/
theorem c1_dropped_receiver_panics :
    writeStep (id : ℚ → ℚ) 1 false (sFix 1 true true) (pPlay 120) [0] = .error () ∧
    writeStep (id : ℚ → ℚ) 1 true (sFix 1 true true) (pPlay 120) [0] =
      .ok ({ sFix 1 true true with playhead := 1 / 2 }, [0], true) := by
  constructor <;>
    norm_num [writeStep, updateWasPlaying, writtenFrame, send_tick, cycle_length,
      sFix, pPlay]

/-- C2 counterexample: starting from playhead 0 at tempo 1 BPM (cycle
length 3600 at source rate 60), three frames advance the playhead to 3; a
fourth frame that observes tempo 3600 BPM (cycle length 1) wraps by
subtracting the cycle length only once, leaving the playhead at 3 — outside
`[0, cycle_length) = [0, 1)`. -/
theorem c2_counterexample :
    playheadAfter (writeFrames (id : ℚ → ℚ) 60 true (sFix 60 false false)
      [(pPlay 1, [0]), (pPlay 1, [0]), (pPlay 1, [0]), (pPlay 3600, [0])]) = some 3 ∧
    cycle_length 60 3600 = 1 ∧ ¬ ((3 : ℚ) < cycle_length 60 3600) := by
  refine ⟨?_, ?_, ?_⟩ <;>
    norm_num [writeFrames, writeStep, updateWasPlaying, writtenFrame, send_tick,
      cycle_length, playheadAfter, sFix, pPlay]

/-- C2 (amended): after a playing frame the playhead lies in
`[0, cycle_length)` PROVIDED the start-of-frame playhead is below the cycle
length computed from that frame's tempo and the per-frame increment does
not exceed that cycle length; a tempo change that shrinks the cycle length
below the current playhead breaks the invariant (only `0 ≤ playhead` is
preserved), since the wrap subtracts the cycle length once. -/
theorem c2_playhead_invariant_amended {T : Type} (conv : ℚ → T) (outRate : ℕ)
    (s : Sampler) (p : SamplerParam) (frame : List T)
    (hp : p.playing = true)
    (h0 : 0 ≤ s.playhead)
    (h1 : s.playhead < cycle_length s.sample_rate p.bpm)
    (hinc : (s.sample_rate : ℚ) / (outRate : ℚ) ≤ cycle_length s.sample_rate p.bpm) :
    ∃ s' f' t, writeStep conv outRate true s p frame = .ok (s', f', t) ∧
      0 ≤ s'.playhead ∧ s'.playhead < cycle_length s.sample_rate p.bpm := by
  have hinc0 : 0 ≤ (s.sample_rate : ℚ) / (outRate : ℚ) := by positivity
  have hb := clockAdvance_bounds s.playhead ((s.sample_rate : ℚ) / (outRate : ℚ))
    (cycle_length s.sample_rate p.bpm) h0 h1 hinc hinc0
  exact ⟨_, _, _, writeStep_play conv outRate s p frame hp, hb.1, hb.2⟩

/-- C2 witness: the amended invariant at source rate 60 Hz, output rate
60 Hz, tempo 60 BPM (cycle length 60), playhead 0. -/
theorem c2_witness :
    ∃ s' f' t, writeStep (id : ℚ → ℚ) 60 true (sFix 60 false false) (pPlay 60) [0] =
        .ok (s', f', t) ∧
      0 ≤ s'.playhead ∧ s'.playhead < cycle_length 60 60 :=
  c2_playhead_invariant_amended (id : ℚ → ℚ) 60 (sFix 60 false false) (pPlay 60) [0]
    rfl (by norm_num [sFix]) (by norm_num [sFix, pPlay, cycle_length])
    (by norm_num [sFix, pPlay, cycle_length])

/-- C4 counterexample: source rate 1 Hz, output rate 1 Hz, tempo 120 BPM
gives `inc = 1 > cycle_length = 1/2`.  After N = 1 frame the playhead is
`1/2` and one tick was emitted, but the claimed values are
`(N*inc) mod cycle_length = 0` and `floor(N*inc / cycle_length) = 2`. -/
theorem c4_counterexample :
    playheadAfter (writeFrames (id : ℚ → ℚ) 1 true (sFix 1 false true)
      [(pPlay 120, [0])]) = some (1 / 2) ∧
    ticksAfter (writeFrames (id : ℚ → ℚ) 1 true (sFix 1 false true)
      [(pPlay 120, [0])]) = some 1 ∧
    cycle_length 1 120 = 1 / 2 ∧
    (1 : ℚ) * 1 - cycle_length 1 120 * ⌊(1 : ℚ) * 1 / cycle_length 1 120⌋ = 0 ∧
    ⌊(1 : ℚ) * 1 / cycle_length 1 120⌋ = 2 ∧
    (1 : ℚ) / 2 ≠ 0 ∧ (1 : ℕ) ≠ 2 := by
  refine ⟨?_, ?_, ?_, ?_, ?_, ?_, ?_⟩ <;>
    norm_num [writeFrames, writeStep, updateWasPlaying, writtenFrame, send_tick,
      cycle_length, playheadAfter, ticksAfter, sFix, pPlay]

/-- C4 (amended): for constant parameter readings with positive cycle
length, `playing = true`, a present sender and a live receiver, and the
per-frame increment at most the cycle length (i.e. tempo at most
`60 * output_rate`), starting from playhead 0: after N frames the playhead
equals `(N*inc) mod cycle_length` exactly (exact arithmetic), and the
number of ticks emitted equals `floor(N*inc / cycle_length)`. -/
theorem c4_tempo_tick_law_amended {T : Type} (conv : ℚ → T) (outRate : ℕ)
    (p : SamplerParam) (s : Sampler) (inputs : List (SamplerParam × List T))
    (hp : p.playing = true)
    (hall : ∀ x ∈ inputs, x.1 = p)
    (hstart : s.playhead = 0)
    (hsend : s.hasSender = true)
    (hL : 0 < cycle_length s.sample_rate p.bpm)
    (hinc : (s.sample_rate : ℚ) / (outRate : ℚ) ≤ cycle_length s.sample_rate p.bpm) :
    ∃ s' fs t, writeFrames conv outRate true s inputs = .ok (s', fs, t) ∧
      s'.playhead = (inputs.length : ℚ) * ((s.sample_rate : ℚ) / (outRate : ℚ)) -
        cycle_length s.sample_rate p.bpm *
          ⌊(inputs.length : ℚ) * ((s.sample_rate : ℚ) / (outRate : ℚ)) /
            cycle_length s.sample_rate p.bpm⌋ ∧
      (t : ℤ) = ⌊(inputs.length : ℚ) * ((s.sample_rate : ℚ) / (outRate : ℚ)) /
        cycle_length s.sample_rate p.bpm⌋ := by
  obtain ⟨s', fs, t, hrun, _, hph, hge, hlt⟩ :=
    writeFrames_const_play conv outRate p hp inputs s hall
      (by rw [hstart]) (by rw [hstart]; exact hL) hinc hsend
  rw [hstart] at hph
  rw [hph] at hge hlt
  have hfloor : ⌊(inputs.length : ℚ) * ((s.sample_rate : ℚ) / (outRate : ℚ)) /
      cycle_length s.sample_rate p.bpm⌋ = (t : ℤ) := by
    rw [Int.floor_eq_iff]
    constructor
    · rw [le_div_iff₀ hL]
      push_cast
      linarith
    · rw [div_lt_iff₀ hL]
      push_cast
      linarith
  refine ⟨s', fs, t, hrun, ?_, hfloor.symm⟩
  rw [hph, hfloor]
  push_cast
  ring

/-- C4 witness: one frame at source rate 60 Hz, output rate 60 Hz, tempo
60 BPM (cycle length 60, increment 1): the playhead ends at 1 and no tick
is emitted, matching `1 mod 60 = 1` and `floor(1/60) = 0`. -/
theorem c4_witness :
    ∃ s' fs t, writeFrames (id : ℚ → ℚ) 60 true (sFix 60 false true)
        [(pPlay 60, [0])] = .ok (s', fs, t) ∧
      s'.playhead = 1 ∧ t = 0 := by
  obtain ⟨s', fs, t, hrun, hph, ht⟩ :=
    c4_tempo_tick_law_amended (id : ℚ → ℚ) 60 (pPlay 60) (sFix 60 false true)
      [(pPlay 60, [0])]
      rfl (by intro x hx; rw [List.mem_singleton] at hx; rw [hx]) rfl rfl
      (by norm_num [sFix, pPlay, cycle_length])
      (by norm_num [sFix, pPlay, cycle_length])
  refine ⟨s', fs, t, hrun, ?_, ?_⟩
  · rw [hph]
    norm_num [sFix, pPlay, cycle_length]
  · have : (t : ℤ) = 0 := by
      rw [ht]
      norm_num [sFix, pPlay, cycle_length]
    exact_mod_cast this

/-- C6: play/stop edge behaviour of one frame.  A stop-to-play transition
(`was_playing = false`, now playing) performs no playhead reset — the frame
advances from the current playhead; a play-to-stop transition
(`was_playing = true`, now not playing) resets the playhead to exactly 0;
two consecutive playing frames (`was_playing = true`, still playing) cause
no reset either. -/
theorem c6_play_stop_edges {T : Type} (conv : ℚ → T) (outRate : ℕ)
    (s : Sampler) (p : SamplerParam) (frame : List T) :
    (s.was_playing = false → p.playing = true →
      ∃ f' t, writeStep conv outRate true s p frame =
        .ok ({ s with was_playing := true,
                      playhead := clockAdvance s.playhead
                        ((s.sample_rate : ℚ) / (outRate : ℚ))
                        (cycle_length s.sample_rate p.bpm) }, f', t)) ∧
    (s.was_playing = true → p.playing = false →
      writeStep conv outRate true s p frame =
        .ok ({ s with was_playing := false, playhead := 0 }, frame, false)) ∧
    (s.was_playing = true → p.playing = true →
      ∃ f' t, writeStep conv outRate true s p frame =
        .ok ({ s with was_playing := true,
                      playhead := clockAdvance s.playhead
                        ((s.sample_rate : ℚ) / (outRate : ℚ))
                        (cycle_length s.sample_rate p.bpm) }, f', t)) := by
  refine ⟨?_, ?_, ?_⟩
  · intro _ hpl
    exact ⟨_, _, writeStep_play conv outRate s p frame hpl⟩
  · intro hwp hpl
    rw [writeStep_stop conv outRate true s p frame hpl, updateWasPlaying_stop, if_pos hwp]
  · intro _ hpl
    exact ⟨_, _, writeStep_play conv outRate s p frame hpl⟩

/-- C6 witness: a play-to-stop transition at source rate 60 resets the
playhead to 0. -/
theorem c6_witness :
    writeStep (id : ℚ → ℚ) 60 true (sFix 60 true false) (pStop 60) [0] =
      .ok ({ sFix 60 true false with was_playing := false, playhead := 0 }, [0], false) :=
  (c6_play_stop_edges (id : ℚ → ℚ) 60 (sFix 60 true false) (pStop 60) [0]).2.1 rfl rfl

/-- C7: on a playing frame whose rounded playhead index is in bounds, the
value `samples[index] * volume` — converted by the output representation's
conversion — is written into every channel slot of the frame. -/
theorem c7_in_bounds_frame_fill {T : Type} (conv : ℚ → T) (outRate : ℕ)
    (s : Sampler) (p : SamplerParam) (frame : List T)
    (hp : p.playing = true)
    (hidx : (rustRound s.playhead).toNat < s.samples.length) :
    ∃ s' t, writeStep conv outRate true s p frame =
      .ok (s', List.replicate frame.length
        (conv (s.samples.getD (rustRound s.playhead).toNat 0 * p.volume)), t) := by
  have hwf : writtenFrame conv s p.volume frame =
      List.replicate frame.length
        (conv (s.samples.getD (rustRound s.playhead).toNat 0 * p.volume)) := by
    unfold writtenFrame
    rw [if_pos hidx, List.map_const']
  exact ⟨_, _, by rw [writeStep_play conv outRate s p frame hp, hwf]⟩

/-- C7 witness: buffer `[1/2]`, playhead 0 (index 0), volume `1/2`: every
slot of a two-channel frame receives `1/4`. -/
theorem c7_witness :
    ∃ s' t, writeStep (id : ℚ → ℚ) 60 true
        ⟨[1 / 2], 2, 60, 0, true, false⟩ ⟨60, true, 1 / 2⟩ [0, 0] =
      .ok (s', List.replicate 2 ((1 : ℚ) / 4), t) := by
  obtain ⟨s', t, h⟩ := c7_in_bounds_frame_fill (id : ℚ → ℚ) 60
    ⟨[1 / 2], 2, 60, 0, true, false⟩ ⟨60, true, 1 / 2⟩ [0, 0] rfl
    (by norm_num [rustRound])
  refine ⟨s', t, ?_⟩
  rw [h]
  norm_num [rustRound, List.getD]

/-- C8: on a playing frame whose rounded playhead index is out of bounds,
the guarded read performs no buffer access, the frame is left unmodified,
and the step still succeeds (no error, no panic). -/
theorem c8_out_of_bounds_noop {T : Type} (conv : ℚ → T) (outRate : ℕ)
    (s : Sampler) (p : SamplerParam) (frame : List T)
    (hp : p.playing = true)
    (hidx : ¬ (rustRound s.playhead).toNat < s.samples.length) :
    ∃ s' t, writeStep conv outRate true s p frame = .ok (s', frame, t) := by
  have hwf : writtenFrame conv s p.volume frame = frame := by
    unfold writtenFrame
    rw [if_neg hidx]
  exact ⟨_, _, by rw [writeStep_play conv outRate s p frame hp, hwf]⟩

/-- C8 witness: with an empty sample buffer every index is out of bounds;
the frame passes through unmodified and the step succeeds. -/
theorem c8_witness :
    ∃ s' t, writeStep (id : ℚ → ℚ) 60 true (sFix 60 true false) (pPlay 60) [(7 : ℚ)] =
      .ok (s', [(7 : ℚ)], t) :=
  c8_out_of_bounds_noop (id : ℚ → ℚ) 60 (sFix 60 true false) (pPlay 60) [(7 : ℚ)]
    rfl (by simp [sFix])

/-- C10: a `write` call in which every frame observes `playing = false`
leaves the output slice entirely unmodified, emits no tick, and does not
advance the playhead: it is reset to exactly 0 on the play-to-stop edge
(`was_playing` initially true and at least one frame) and left unchanged
otherwise.  This holds whether or not the tick receiver is alive. -/
theorem c10_stopped_write_is_noop {T : Type} (conv : ℚ → T) (outRate : ℕ) (ra : Bool)
    (s : Sampler) (inputs : List (SamplerParam × List T))
    (hstop : ∀ x ∈ inputs, x.1.playing = false) :
    writeFrames conv outRate ra s inputs =
      .ok ({ s with
             was_playing := if inputs.isEmpty then s.was_playing else false,
             playhead := if s.was_playing && !inputs.isEmpty then 0 else s.playhead },
           inputs.map Prod.snd, 0) := by
  revert hstop
  induction inputs generalizing s with
  | nil =>
    intro _
    simp [writeFrames]
  | cons head tail ih =>
    intro hstop
    obtain ⟨p1, f1⟩ := head
    have hp1 : p1.playing = false := hstop (p1, f1) (List.mem_cons_self _ _)
    have hstep := writeStep_stop conv outRate ra s p1 f1 hp1
    rw [updateWasPlaying_stop] at hstep
    have htail : ∀ x ∈ tail, x.1.playing = false :=
      fun x hx => hstop x (List.mem_cons_of_mem _ hx)
    by_cases hwp : s.was_playing
    · rw [if_pos hwp] at hstep
      simp only [writeFrames, hstep, ih _ htail]
      simp [hwp]
    · rw [if_neg hwp] at hstep
      rw [Bool.not_eq_true] at hwp
      simp only [writeFrames, hstep, ih _ htail]
      simp [hwp]

/-- C10 witness: one stopped frame after playing: the frame passes through,
no tick is emitted, and the playhead is reset to 0 on the edge. -/
theorem c10_witness :
    writeFrames (id : ℚ → ℚ) 60 false (sFix 60 true false) [(pStop 120, [(7 : ℚ)])] =
      .ok ({ sFix 60 true false with was_playing := false, playhead := 0 },
           [[(7 : ℚ)]], 0) := by
  have h := c10_stopped_write_is_noop (id : ℚ → ℚ) 60 false (sFix 60 true false)
    [(pStop 120, [(7 : ℚ)])]
    (by intro x hx; rw [List.mem_singleton] at hx; rw [hx]; rfl)
  simpa using h

end Cory
